import Mathlib

/-!
Shallow embedding of `src/src/wishes/wishes.service.ts` (WishesService) from
the kupipodariday-backend repository near the persistence layer it drives.

The store is modelled as a list of wish rows plus a counter for the next
store-assigned id.  Repository primitives (`findOne`, `update`, `delete`,
`save`, `find` with order/take) are modelled as pure functions on this state;
each service method becomes a function returning an `Except` result paired
with the store state observable after the call.

Parts of the repository referenced by the service but absent from `src/`
(the `Wish` entity with its column defaults and `toJSON` method, the DTO
classes, `WishErrors` / `WishesLimits` constants) are modelled from the
spec; each such definition carries a doc comment saying so.
-/

/-- Modelled from the spec: named error messages (`WishErrors` constants in
`wishes.constants.ts`, not under `src/`): NotFound, NotOwner,
CannotChangePrice. -/
inductive ErrMsg
  | notFound
  | notOwner
  | cannotChangePrice
deriving DecidableEq, Repr

/-- Exceptions observable by the caller.  `notFoundException` and
`badRequestException` model the two NestJS exception classes thrown in the
source, each carrying its `WishErrors` message; `typeError` models the
JavaScript runtime TypeError raised when destructuring `null`; `storeError`
models a failure of the persistence store itself, which the component
propagates unchanged. -/
inductive Exc
  | notFoundException (msg : ErrMsg)
  | badRequestException (msg : ErrMsg)
  | typeError
  | storeError
deriving DecidableEq, Repr

deriving instance DecidableEq for Except

/-- Modelled from the spec: the authenticated user identity passed into
`create` and `copy`; the `User` entity is not under `src/`, and only its id
takes part in the service logic. -/
structure User where
  id : Nat
deriving DecidableEq, Repr

/-- Modelled from the spec: the `Wish` entity (`wish.entity.ts` is not under
`src/`): id, title/description/link/image, price, raised, copied, createdAt,
and the owner relation (represented by the owner's id).  The `offers`
relation is owned by an external subsystem, is read-only from this
component, and takes no part in any claim, so it is not modelled.  Amounts
and timestamps are modelled as naturals. -/
structure Wish where
  id : Nat
  title : String
  description : String
  link : String
  image : String
  price : Nat
  raised : Nat
  copied : Nat
  createdAt : Nat
  ownerId : Nat
deriving DecidableEq, Repr

/-- The JSON-safe projection of a wish returned to callers. -/
structure WishView where
  id : Nat
  title : String
  description : String
  link : String
  image : String
  price : Nat
  raised : Nat
  copied : Nat
  createdAt : Nat
  ownerId : Nat
deriving DecidableEq, Repr

/-- Modelled from the spec: the entity's `toJSON` method (not under `src/`),
a JSON-safe projection of the record's scalar fields plus the owner, cycles
removed. -/
def Wish.toJSON (w : Wish) : WishView :=
  { id := w.id, title := w.title, description := w.description,
    link := w.link, image := w.image, price := w.price, raised := w.raised,
    copied := w.copied, createdAt := w.createdAt, ownerId := w.ownerId }

/-- The persistence store: the wish rows plus the next store-assigned id.
Store-assigned creation timestamps are modelled by the same counter, which
increases by one at each insertion. -/
structure Store where
  wishes : List Wish
  nextId : Nat
deriving DecidableEq, Repr

/-- Repository `findOne`/`findOneBy` with a `where: { id }` filter: the
first row whose id matches, if any. -/
def Store.findOne (st : Store) (id : Nat) : Option Wish :=
  st.wishes.find? (fun w => w.id == id)

/-- Repository `update(id, patch)`: applies the patch to every row whose id
matches; the patch is rendered as a row transformation at each call site. -/
def Store.updateWish (st : Store) (id : Nat) (f : Wish → Wish) : Store :=
  { st with wishes := st.wishes.map (fun w => if w.id == id then f w else w) }

/-- Repository `delete(id)`: removes every row whose id matches. -/
def Store.deleteWish (st : Store) (id : Nat) : Store :=
  { st with wishes := st.wishes.filter (fun w => w.id != id) }

/-- Well-formedness of the store: every row's id is below the next
store-assigned id, so a freshly saved record never collides with an
existing row.  A relational store with an auto-increment key maintains
this. -/
def Store.WF (st : Store) : Prop :=
  ∀ w ∈ st.wishes, w.id < st.nextId

instance (st : Store) : Decidable st.WF :=
  List.decidableBAll _ st.wishes

/-- Modelled from the spec: the creation payload (`CreateWishDto`, not under
`src/`): title, description, link, image, price. -/
structure CreateWishDto where
  title : String
  description : String
  link : String
  image : String
  price : Nat
deriving DecidableEq, Repr

/-- Modelled from the spec: the update payload (`UpdateWishDto`, not under
`src/`), a partial version of the creation payload: each field optional,
absent fields untouched by the patch. -/
structure UpdateWishDto where
  title : Option String := none
  description : Option String := none
  link : Option String := none
  image : Option String := none
  price : Option Nat := none
deriving DecidableEq, Repr

/-- Application of an update patch to a row: fields present in the payload
replace the row's fields, absent fields are untouched. -/
def applyDto (dto : UpdateWishDto) (w : Wish) : Wish :=
  { w with
    title := dto.title.getD w.title,
    description := dto.description.getD w.description,
    link := dto.link.getD w.link,
    image := dto.image.getD w.image,
    price := dto.price.getD w.price }

/-- WishesService.create: `this.wishRepository.save({ ...createWishDto,
owner: user })`.  The saved row takes the next store-assigned id and
creation timestamp; `raised` and `copied` start at 0 (modelled from the
spec: the entity's column defaults are not under `src/`).  The source
returns the saved entity itself, whose caller-observable JSON shape is its
`toJSON` projection. -/
def create (st : Store) (dto : CreateWishDto) (user : User) : Wish × Store :=
  let w : Wish :=
    { id := st.nextId, title := dto.title, description := dto.description,
      link := dto.link, image := dto.image, price := dto.price,
      raised := 0, copied := 0, createdAt := st.nextId, ownerId := user.id }
  (w, { wishes := st.wishes ++ [w], nextId := st.nextId + 1 })

/-- WishesService.update: load with owner, NotFound if absent, NotOwner if
the requester is not the owner, CannotChangePrice if the patch's price is
present, differs from the stored price, and the wish has contributions;
otherwise apply the patch, re-read, and return the projection (NotFound if
the re-read finds nothing). -/
def update (st : Store) (wishId : Nat) (dto : UpdateWishDto) (userId : Nat) :
    Except Exc WishView × Store :=
  match st.findOne wishId with
  | none => (.error (.notFoundException .notFound), st)
  | some wish =>
    if wish.ownerId ≠ userId then
      (.error (.badRequestException .notOwner), st)
    else
      let isPriceChanged : Bool := dto.price.isSome && dto.price != some wish.price
      let hasContributions : Bool := decide (wish.raised > 0)
      if isPriceChanged && hasContributions then
        (.error (.badRequestException .cannotChangePrice), st)
      else
        let st1 := st.updateWish wishId (applyDto dto)
        match st1.findOne wishId with
        | none => (.error (.notFoundException .notFound), st1)
        | some updated => (.ok updated.toJSON, st1)

/-- WishesService.remove: load with owner, NotFound if absent, NotOwner if
the requester is not the owner, otherwise delete the row and return the
projection of the pre-delete snapshot. -/
def remove (st : Store) (wishId : Nat) (userId : Nat) :
    Except Exc WishView × Store :=
  match st.findOne wishId with
  | none => (.error (.notFoundException .notFound), st)
  | some wish =>
    if wish.ownerId ≠ userId then
      (.error (.badRequestException .notOwner), st)
    else
      (.ok wish.toJSON, st.deleteWish wishId)

/-- Modelled from the spec: the two configured caps (`WishesLimits`, not
under `src/`): the latest-wishes cap and the most-copied cap.  The concrete
values are not in the source under `src/`; no proof below depends on
them. -/
def WishesLimits.latest : Nat := 40

/-- Modelled from the spec: the most-copied cap; see `WishesLimits.latest`. -/
def WishesLimits.mostCopied : Nat := 20

/-- Insertion of a row into a list sorted by a key, descending. -/
def insertByKeyDesc (key : Wish → Nat) (x : Wish) : List Wish → List Wish
  | [] => [x]
  | y :: ys =>
    if key y ≤ key x then x :: y :: ys else y :: insertByKeyDesc key x ys

/-- Repository `find` with `order: DESC` on a numeric key: the rows sorted
by the key, descending.  SQL guarantees no particular order among equal
keys, so any sorted permutation is a faithful model. -/
def sortByKeyDesc (key : Wish → Nat) : List Wish → List Wish
  | [] => []
  | x :: xs => insertByKeyDesc key x (sortByKeyDesc key xs)

/-- WishesService.findLatestWishes: rows ordered by `createdAt` descending,
at most `WishesLimits.latest` of them, each projected by `toJSON`.  The
`?? []` in the source is dead code: `map` never yields null. -/
def findLatestWishes (st : Store) : List WishView :=
  (((sortByKeyDesc (fun w => w.createdAt)) st.wishes).take WishesLimits.latest).map
    Wish.toJSON

/-- WishesService.findTopWishes: rows ordered by `copied` descending, at
most `WishesLimits.mostCopied` of them, each projected by `toJSON`. -/
def findTopWishes (st : Store) : List WishView :=
  (((sortByKeyDesc (fun w => w.copied)) st.wishes).take WishesLimits.mostCopied).map
    Wish.toJSON

/-- WishesService.getManyByIds: on an empty id list, returns `[]` before any
repository call; otherwise `find` with `id In(wishIds)`, projected by
`toJSON`. -/
def getManyByIds (st : Store) (wishIds : List Nat) : List WishView :=
  if wishIds.isEmpty then []
  else (st.wishes.filter (fun w => wishIds.contains w.id)).map Wish.toJSON

/-- Count of repository calls performed by `getManyByIds` on the given
input, read off the source's control flow: the empty-input early return
precedes the only repository call. -/
def getManyByIdsStoreAccesses (wishIds : List Nat) : Nat :=
  if wishIds.isEmpty then 0 else 1

/-- The destructuring step in `copy`: strips id, timestamps, copied, owner,
offers and raised from the re-read row, keeping the descriptive fields that
feed `create`. -/
def stripDerived (w : Wish) : CreateWishDto :=
  { title := w.title, description := w.description, link := w.link,
    image := w.image, price := w.price }

/-- Fault model for `copy`'s transactional block.  `deleteBeforeTx` models
the source wish being deleted by a concurrent call between the initial load
and the in-block re-read; `failIncrement` and `failCreate` model the store
failing the counter-increment write and the new-record insertion
respectively; `hideSaved` models the re-read of the newly created record
finding nothing. -/
structure CopyInjection where
  deleteBeforeTx : Bool
  failIncrement : Bool
  failCreate : Bool
  hideSaved : Bool
deriving DecidableEq, Repr

/-- The fault-free execution of `copy`. -/
def noInjection : CopyInjection :=
  { deleteBeforeTx := false, failIncrement := false, failCreate := false,
    hideSaved := false }

/-- The queryRunner's `rollbackTransaction` as it acts on the store.  The
writes in `copy`'s try block are issued through `this.wishRepository` (the
repository bound to the default connection), not through
`queryRunner.manager`; per the persistence layer's transaction semantics,
only operations executed through a query runner's own manager join the
transaction that runner started, so none of the block's writes are enrolled
in it and rolling it back restores nothing. -/
def QueryRunner.rollback (current : Store) : Store := current

/-- The body of `copy`'s try block: re-read the source row by id
(destructured with no null check, so an absent row raises a runtime
TypeError, not NotFound), write `copied + 1` to the source row, create the
new wish via the normal create path, re-read the new record (NotFound if
absent), and return its projection.  Each write is threaded through the
store state immediately, since it runs on the default connection (see
`QueryRunner.rollback`). -/
def copyTx (st : Store) (wishId : Nat) (user : User) (inj : CopyInjection) :
    Except Exc WishView × Store :=
  match st.findOne wishId with
  | none => (.error .typeError, st)
  | some w =>
    if inj.failIncrement then (.error .storeError, st)
    else
      let st1 := st.updateWish wishId (fun row => { row with copied := w.copied + 1 })
      if inj.failCreate then (.error .storeError, st1)
      else
        let nw := create st1 (stripDerived w) user
        match (if inj.hideSaved then none else nw.2.findOne nw.1.id) with
        | none => (.error (.notFoundException .notFound), nw.2)
        | some saved => (.ok saved.toJSON, nw.2)

/-- WishesService.copy: load the source wish (NotFound if absent), start a
transaction, run the block, commit on success; on any failure roll the
transaction back and re-surface the error.  `inj` injects the faults the
block can encounter (see `CopyInjection`). -/
def copy (st : Store) (wishId : Nat) (user : User) (inj : CopyInjection) :
    Except Exc WishView × Store :=
  match st.findOne wishId with
  | none => (.error (.notFoundException .notFound), st)
  | some _ =>
    let stTx := if inj.deleteBeforeTx then st.deleteWish wishId else st
    match copyTx stTx wishId user inj with
    | (.ok v, st2) => (.ok v, st2)
    | (.error e, st2) => (.error e, QueryRunner.rollback st2)

/-- The state of the store after `copy`'s fault-free block has incremented
the counter and created the new record: the new wish and the store holding
it.  Used to phrase what a successful `copy` returns. -/
def copyNewWish (st : Store) (wishId : Nat) (user : User) (w : Wish) :
    Wish × Store :=
  create (st.updateWish wishId (fun row => { row with copied := w.copied + 1 }))
    (stripDerived w) user

/-- Fixture: a wish with contributions (`raised = 5`), price 100, owner 7. -/
def wishEx : Wish :=
  { id := 1, title := "bike", description := "red bike", link := "http",
    image := "img", price := 100, raised := 5, copied := 0, createdAt := 0,
    ownerId := 7 }

/-- Fixture: a store holding only `wishEx`. -/
def stEx : Store := { wishes := [wishEx], nextId := 2 }

/-- Fixture: a patch whose price equals the stored price of `wishEx`. -/
def dtoPriceSame : UpdateWishDto := { price := some 100 }

/-- Fixture: a patch whose price differs from the stored price of `wishEx`. -/
def dtoPriceNew : UpdateWishDto := { price := some 200 }

/-- Fixture: a patch changing the title and repeating the stored price. -/
def dtoTitleSamePrice : UpdateWishDto :=
  { title := some "scooter", price := some 100 }

/-- Fixture: the acting user for copy scenarios, distinct from owner 7. -/
def userB : User := { id := 9 }

/-- Fixture: the fault injection where the store fails the new-record
insertion inside `copy`'s block. -/
def injFailCreate : CopyInjection :=
  { deleteBeforeTx := false, failIncrement := false, failCreate := true,
    hideSaved := false }

/-- Fixture: the fault injection where the source wish is deleted by a
concurrent call between `copy`'s initial load and the in-block re-read. -/
def injDeleteBeforeTx : CopyInjection :=
  { deleteBeforeTx := true, failIncrement := false, failCreate := false,
    hideSaved := false }

/-- Fixture: the fault injection where the re-read of the newly created
record finds nothing. -/
def injHideSaved : CopyInjection :=
  { deleteBeforeTx := false, failIncrement := false, failCreate := false,
    hideSaved := true }

/-- Looking a row up by id after an id-preserving per-row update finds the
updated image of whatever the lookup found before. -/
theorem find?_map_update (l : List Wish) (id : Nat) (f : Wish → Wish)
    (hid : ∀ w, (f w).id = w.id) :
    (l.map (fun w => if w.id == id then f w else w)).find? (fun w => w.id == id)
      = (l.find? (fun w => w.id == id)).map f := by
  induction l with
  | nil => rfl
  | cons x xs ih =>
    by_cases hx : x.id = id
    · rw [List.map_cons,
        show (if x.id == id then f x else x) = f x from by simp [hx],
        List.find?_cons_of_pos _ (by simp [hid, hx]),
        List.find?_cons_of_pos _ (by simp [hx])]
      rfl
    · rw [List.map_cons,
        show (if x.id == id then f x else x) = x from by simp [hx],
        List.find?_cons_of_neg _ (by simp [hx]),
        List.find?_cons_of_neg _ (by simp [hx]), ih]

/-- `Store.findOne` after `Store.updateWish` with an id-preserving patch. -/
theorem findOne_updateWish (st : Store) (id : Nat) (f : Wish → Wish)
    (hid : ∀ w, (f w).id = w.id) :
    (st.updateWish id f).findOne id = (st.findOne id).map f :=
  find?_map_update st.wishes id f hid

/-- `Store.findOne` no longer finds a deleted id. -/
theorem findOne_deleteWish (st : Store) (id : Nat) :
    (st.deleteWish id).findOne id = none := by
  refine List.find?_eq_none.mpr ?_
  intro x hx
  have hne := (List.mem_filter.mp hx).2
  simp at hne ⊢
  exact hne

/-- An id-preserving per-row update keeps the store well-formed. -/
theorem WF_updateWish (st : Store) (id : Nat) (f : Wish → Wish)
    (hid : ∀ w, (f w).id = w.id) (hWF : st.WF) : (st.updateWish id f).WF := by
  intro w hw
  rcases List.mem_map.mp hw with ⟨x, hx, rfl⟩
  by_cases h : x.id = id
  · simpa [h, hid] using hWF x hx
  · simpa [h] using hWF x hx

/-- In a well-formed store, re-reading a freshly saved record by its id
finds exactly that record. -/
theorem findOne_create_self (st : Store) (dto : CreateWishDto) (user : User)
    (hWF : st.WF) :
    (create st dto user).2.findOne (create st dto user).1.id
      = some (create st dto user).1 := by
  show ((st.wishes ++ [(create st dto user).1]).find? (fun w => w.id == st.nextId))
      = some (create st dto user).1
  rw [List.find?_append]
  have h1 : st.wishes.find? (fun w => w.id == st.nextId) = none := by
    refine List.find?_eq_none.mpr ?_
    intro x hx
    simp
    exact Nat.ne_of_lt (hWF x hx)
  have h2 : (create st dto user).1.id = st.nextId := rfl
  simp [h1, List.find?, h2]

/-- Saving a record leaves every previously stored row findable unchanged:
the lookup scans the old rows first. -/
theorem findOne_create_old (st : Store) (dto : CreateWishDto) (user : User)
    (id : Nat) (w : Wish) (hfind : st.findOne id = some w) :
    (create st dto user).2.findOne id = some w := by
  show ((st.wishes ++ [(create st dto user).1]).find? (fun x => x.id == id)) = some w
  rw [List.find?_append]
  simp [Store.findOne] at hfind
  simp [hfind]

/-- Membership after inserting into a key-sorted list. -/
theorem mem_insertByKeyDesc {key : Wish → Nat} {x y : Wish} {l : List Wish}
    (h : y ∈ insertByKeyDesc key x l) : y = x ∨ y ∈ l := by
  induction l with
  | nil => simpa [insertByKeyDesc] using h
  | cons z zs ih =>
    by_cases hz : key z ≤ key x
    · simp only [insertByKeyDesc, if_pos hz] at h
      rcases List.mem_cons.mp h with rfl | h2
      · exact Or.inl rfl
      · exact Or.inr h2
    · simp only [insertByKeyDesc, if_neg hz] at h
      rcases List.mem_cons.mp h with rfl | h2
      · exact Or.inr (List.mem_cons_self _ _)
      · rcases ih h2 with rfl | h3
        · exact Or.inl rfl
        · exact Or.inr (List.mem_cons_of_mem _ h3)

/-- Inserting into a list sorted by a key descending keeps it sorted. -/
theorem pairwise_insertByKeyDesc {key : Wish → Nat} {x : Wish} {l : List Wish}
    (h : l.Pairwise (fun a b => key b ≤ key a)) :
    (insertByKeyDesc key x l).Pairwise (fun a b => key b ≤ key a) := by
  induction l with
  | nil => simp [insertByKeyDesc]
  | cons z zs ih =>
    rcases List.pairwise_cons.mp h with ⟨hz, hzs⟩
    by_cases hcmp : key z ≤ key x
    · simp only [insertByKeyDesc, if_pos hcmp]
      refine List.pairwise_cons.mpr ⟨?_, h⟩
      intro y hy
      rcases List.mem_cons.mp hy with rfl | hy2
      · exact hcmp
      · exact le_trans (hz y hy2) hcmp
    · simp only [insertByKeyDesc, if_neg hcmp]
      refine List.pairwise_cons.mpr ⟨?_, ih hzs⟩
      intro y hy
      rcases mem_insertByKeyDesc hy with rfl | hy2
      · exact Nat.le_of_lt (Nat.lt_of_not_le hcmp)
      · exact hz y hy2

/-- The descending sort used by the ordered finders is sorted: each element
dominates every later one on the key. -/
theorem pairwise_sortByKeyDesc (key : Wish → Nat) (l : List Wish) :
    (sortByKeyDesc key l).Pairwise (fun a b => key b ≤ key a) := by
  induction l with
  | nil => simp [sortByKeyDesc]
  | cons x xs ih => exact pairwise_insertByKeyDesc ih

/-- Reduction of `update` on its success path: wish found, requester owns
it, and the price-lock condition is false. -/
theorem update_success (st : Store) (wishId : Nat) (dto : UpdateWishDto)
    (userId : Nat) (wish : Wish)
    (hfind : st.findOne wishId = some wish) (hown : wish.ownerId = userId)
    (hnolock : ((dto.price.isSome && dto.price != some wish.price)
        && decide (wish.raised > 0)) = false) :
    update st wishId dto userId =
      (.ok ((applyDto dto wish).toJSON), st.updateWish wishId (applyDto dto)) := by
  have hre : (st.updateWish wishId (applyDto dto)).findOne wishId
      = some (applyDto dto wish) := by
    rw [findOne_updateWish st wishId (applyDto dto) (fun w => rfl), hfind]
    rfl
  simp only [update, hfind, hown, ne_eq, not_true_eq_false, if_false, hnolock,
    Bool.false_eq_true, hre]

/-- Reduction of `update` when the requester does not own the wish. -/
theorem update_notOwner_eq (st : Store) (wishId : Nat) (dto : UpdateWishDto)
    (userId : Nat) (wish : Wish)
    (hfind : st.findOne wishId = some wish) (hown : wish.ownerId ≠ userId) :
    update st wishId dto userId = (.error (.badRequestException .notOwner), st) := by
  simp only [update, hfind, if_pos hown]

/-- Reduction of `update` when the patch carries a price different from the
stored one and the wish has contributions. -/
theorem update_priceLocked_eq (st : Store) (wishId : Nat) (dto : UpdateWishDto)
    (userId : Nat) (wish : Wish) (p : Nat)
    (hfind : st.findOne wishId = some wish) (hown : wish.ownerId = userId)
    (hp : dto.price = some p) (hne : p ≠ wish.price) (hr : 0 < wish.raised) :
    update st wishId dto userId
      = (.error (.badRequestException .cannotChangePrice), st) := by
  have hcond : ((dto.price.isSome && dto.price != some wish.price)
      && decide (wish.raised > 0)) = true := by
    simp [hp, hne, hr]
  simp only [update, hfind, hown, ne_eq, not_true_eq_false, if_false, hcond,
    if_true]

/-- Reduction of `remove` when the requester does not own the wish. -/
theorem remove_notOwner_eq (st : Store) (wishId : Nat) (userId : Nat)
    (wish : Wish)
    (hfind : st.findOne wishId = some wish) (hown : wish.ownerId ≠ userId) :
    remove st wishId userId = (.error (.badRequestException .notOwner), st) := by
  simp only [remove, hfind, if_pos hown]

/-- C3 counterexample: on a wish the requester owns, with contributions
(`raised = 5 > 0`), a patch that does contain a price — equal to the stored
one — does not fail with PriceLocked: the update succeeds, so the claim as
stated is false at this input. -/
theorem update_price_raised_counterexample :
    stEx.findOne 1 = some wishEx ∧ wishEx.ownerId = 7 ∧ 0 < wishEx.raised ∧
    dtoPriceSame.price = some 100 ∧
    (update stEx 1 dtoPriceSame 7).1 = .ok ((applyDto dtoPriceSame wishEx).toJSON) ∧
    (update stEx 1 dtoPriceSame 7).1
      ≠ .error (.badRequestException .cannotChangePrice) := by
  refine ⟨rfl, rfl, by decide, rfl, by decide, by decide⟩

/-- C3 (amended): for a wish the requester owns and a patch containing a
price, the update succeeds when `raised = 0`; when `raised > 0` it fails
with the price-locked error exactly when the patch's price differs from the
stored one, and then the store — including the stored price — is
unchanged. -/
theorem update_priceLock_amended (st : Store) (wishId : Nat)
    (dto : UpdateWishDto) (userId : Nat) (wish : Wish) (p : Nat)
    (hfind : st.findOne wishId = some wish) (hown : wish.ownerId = userId)
    (hp : dto.price = some p) :
    (wish.raised = 0 →
      update st wishId dto userId =
        (.ok ((applyDto dto wish).toJSON), st.updateWish wishId (applyDto dto)))
    ∧ (0 < wish.raised → p ≠ wish.price →
      update st wishId dto userId =
        (.error (.badRequestException .cannotChangePrice), st)) := by
  constructor
  · intro hr
    exact update_success st wishId dto userId wish hfind hown (by simp [hr])
  · intro hr hne
    exact update_priceLocked_eq st wishId dto userId wish p hfind hown hp hne hr

/-- C3 witness: on `wishEx` (raised 5, price 100) owned by user 7, the
patch with price 200 is rejected with the price-locked error and the store
is unchanged. -/
theorem update_priceLock_amended_witness :
    stEx.findOne 1 = some wishEx ∧ wishEx.ownerId = 7 ∧
    dtoPriceNew.price = some 200 ∧ 0 < wishEx.raised ∧ (200 : Nat) ≠ wishEx.price ∧
    update stEx 1 dtoPriceNew 7
      = (.error (.badRequestException .cannotChangePrice), stEx) :=
  ⟨rfl, rfl, rfl, by decide, by decide,
    (update_priceLock_amended stEx 1 dtoPriceNew 7 wishEx 200 rfl rfl rfl).2
      (by decide) (by decide)⟩

/-- C4: `update` and `remove` requested by a user who does not own the
wish both fail with the NotOwner error and leave the store unchanged. -/
theorem update_remove_notOwner_unchanged (st : Store) (wishId : Nat)
    (dto : UpdateWishDto) (userId : Nat) (wish : Wish)
    (hfind : st.findOne wishId = some wish) (hown : wish.ownerId ≠ userId) :
    update st wishId dto userId = (.error (.badRequestException .notOwner), st)
    ∧ remove st wishId userId = (.error (.badRequestException .notOwner), st) :=
  ⟨update_notOwner_eq st wishId dto userId wish hfind hown,
   remove_notOwner_eq st wishId userId wish hfind hown⟩

/-- C4 witness: user 9 neither updates nor removes `wishEx`, owned by
user 7; both calls fail with NotOwner and the store is unchanged. -/
theorem update_remove_notOwner_unchanged_witness :
    stEx.findOne 1 = some wishEx ∧ wishEx.ownerId ≠ 9 ∧
    update stEx 1 dtoPriceNew 9 = (.error (.badRequestException .notOwner), stEx)
    ∧ remove stEx 1 9 = (.error (.badRequestException .notOwner), stEx) :=
  ⟨rfl, by decide,
    (update_remove_notOwner_unchanged stEx 1 dtoPriceNew 9 wishEx rfl (by decide)).1,
    (update_remove_notOwner_unchanged stEx 1 dtoPriceNew 9 wishEx rfl (by decide)).2⟩

/-- C5: the price-locked failure and the ownership failure of `update` are
distinct error values, so the caller can tell them apart. -/
theorem priceLock_distinct_error :
    (∀ st wishId dto userId wish, Store.findOne st wishId = some wish →
        wish.ownerId ≠ userId →
        (update st wishId dto userId).1 = .error (.badRequestException .notOwner))
    ∧ (∀ st wishId dto userId wish p, Store.findOne st wishId = some wish →
        wish.ownerId = userId → dto.price = some p → p ≠ wish.price →
        0 < wish.raised →
        (update st wishId dto userId).1
          = .error (.badRequestException .cannotChangePrice))
    ∧ Exc.badRequestException .cannotChangePrice
        ≠ Exc.badRequestException .notOwner := by
  refine ⟨?_, ?_, by decide⟩
  · intro st wishId dto userId wish hfind hown
    rw [update_notOwner_eq st wishId dto userId wish hfind hown]
  · intro st wishId dto userId wish p hfind hown hp hne hr
    rw [update_priceLocked_eq st wishId dto userId wish p hfind hown hp hne hr]

/-- C5 witness: at concrete inputs, the non-owner call yields the NotOwner
error and the owner's price change on a funded wish yields the
price-locked error. -/
theorem priceLock_distinct_error_witness :
    (update stEx 1 dtoPriceNew 9).1 = .error (.badRequestException .notOwner)
    ∧ (update stEx 1 dtoPriceNew 7).1
        = .error (.badRequestException .cannotChangePrice) :=
  ⟨priceLock_distinct_error.1 stEx 1 dtoPriceNew 9 wishEx rfl (by decide),
   priceLock_distinct_error.2.1 stEx 1 dtoPriceNew 7 wishEx 200 rfl rfl rfl
     (by decide) (by decide)⟩

/-- C9: on a funded wish (`raised > 0`) owned by the requester, a patch
whose price equals the stored price is not price-locked: the update
succeeds and applies the patch's other fields. -/
theorem update_equalPrice_succeeds (st : Store) (wishId : Nat)
    (dto : UpdateWishDto) (userId : Nat) (wish : Wish)
    (hfind : st.findOne wishId = some wish) (hown : wish.ownerId = userId)
    (_hr : 0 < wish.raised) (hp : dto.price = some wish.price) :
    update st wishId dto userId =
      (.ok ((applyDto dto wish).toJSON), st.updateWish wishId (applyDto dto)) :=
  update_success st wishId dto userId wish hfind hown (by simp [hp])

/-- C9 witness: on `wishEx` (raised 5, price 100) owned by user 7, a patch
with the same price 100 and a new title succeeds and applies the title. -/
theorem update_equalPrice_succeeds_witness :
    stEx.findOne 1 = some wishEx ∧ wishEx.ownerId = 7 ∧ 0 < wishEx.raised ∧
    dtoTitleSamePrice.price = some wishEx.price ∧
    update stEx 1 dtoTitleSamePrice 7 =
      (.ok ((applyDto dtoTitleSamePrice wishEx).toJSON),
        stEx.updateWish 1 (applyDto dtoTitleSamePrice)) ∧
    (applyDto dtoTitleSamePrice wishEx).title = "scooter" :=
  ⟨rfl, rfl, by decide, rfl,
    update_equalPrice_succeeds stEx 1 dtoTitleSamePrice 7 wishEx rfl rfl
      (by decide) rfl, rfl⟩

/-- C6: `create` persists a new record owned by the acting user with
`raised = 0` and `copied = 0` — the store after the call holds exactly the
old rows plus that record — and the record's normalized projection carries
the same owner and zero counters. -/
theorem create_defaults (st : Store) (dto : CreateWishDto) (user : User) :
    (create st dto user).1.ownerId = user.id
    ∧ (create st dto user).1.raised = 0
    ∧ (create st dto user).1.copied = 0
    ∧ (create st dto user).1.title = dto.title
    ∧ (create st dto user).1.price = dto.price
    ∧ (create st dto user).2.wishes = st.wishes ++ [(create st dto user).1]
    ∧ ((create st dto user).1.toJSON).ownerId = user.id
    ∧ ((create st dto user).1.toJSON).raised = 0
    ∧ ((create st dto user).1.toJSON).copied = 0 :=
  ⟨rfl, rfl, rfl, rfl, rfl, rfl, rfl, rfl, rfl⟩

/-- C7: `findLatestWishes` returns at most the latest cap of wishes, in
descending creation-time order, and `findTopWishes` at most the most-copied
cap, in descending copied order; on an empty store both return the empty
sequence. -/
theorem findLatest_findTop_caps_sorted (st : Store) :
    (findLatestWishes st).length ≤ WishesLimits.latest
    ∧ (findLatestWishes st).Pairwise (fun a b => b.createdAt ≤ a.createdAt)
    ∧ (findTopWishes st).length ≤ WishesLimits.mostCopied
    ∧ (findTopWishes st).Pairwise (fun a b => b.copied ≤ a.copied)
    ∧ (st.wishes = [] → findLatestWishes st = [] ∧ findTopWishes st = []) := by
  refine ⟨?_, ?_, ?_, ?_, ?_⟩
  · rw [findLatestWishes, List.length_map, List.length_take]
    exact Nat.min_le_left _ _
  · refine List.pairwise_map.mpr ?_
    exact ((pairwise_sortByKeyDesc (fun w => w.createdAt) st.wishes).sublist
      (List.take_sublist _ _))
  · rw [findTopWishes, List.length_map, List.length_take]
    exact Nat.min_le_left _ _
  · refine List.pairwise_map.mpr ?_
    exact ((pairwise_sortByKeyDesc (fun w => w.copied) st.wishes).sublist
      (List.take_sublist _ _))
  · intro h
    exact ⟨by simp [findLatestWishes, h, sortByKeyDesc],
      by simp [findTopWishes, h, sortByKeyDesc]⟩

/-- C7 witness: on the empty store both finders return the empty list, and
the cap and ordering bounds hold there. -/
theorem findLatest_findTop_caps_sorted_witness :
    findLatestWishes { wishes := [], nextId := 0 } = []
    ∧ findTopWishes { wishes := [], nextId := 0 } = [] :=
  (findLatest_findTop_caps_sorted { wishes := [], nextId := 0 }).2.2.2.2 rfl

/-- C8: `getManyByIds` on the empty id list returns the empty sequence with
no repository access, and in general returns exactly the projections of the
stored rows whose id lies in the requested collection — missing ids are
silently absent. -/
theorem getManyByIds_spec (st : Store) (wishIds : List Nat) :
    (wishIds = [] → getManyByIds st wishIds = []
      ∧ getManyByIdsStoreAccesses wishIds = 0)
    ∧ (∀ v, v ∈ getManyByIds st wishIds ↔
        ∃ w, w ∈ st.wishes ∧ w.id ∈ wishIds ∧ v = w.toJSON) := by
  constructor
  · rintro rfl
    exact ⟨rfl, rfl⟩
  · intro v
    rcases wishIds with _ | ⟨i, is⟩
    · simp [getManyByIds]
    · simp only [getManyByIds, List.isEmpty_cons, if_false, Bool.false_eq_true,
        List.mem_map, List.mem_filter]
      constructor
      · rintro ⟨w, ⟨hw, hc⟩, rfl⟩
        exact ⟨w, hw, by simpa using hc, rfl⟩
      · rintro ⟨w, hw, hc, rfl⟩
        exact ⟨w, ⟨hw, by simpa using hc⟩, rfl⟩

/-- C8 witness: the empty call and a two-id call on the singleton store,
applying the general characterization at concrete inputs. -/
theorem getManyByIds_spec_witness :
    (getManyByIds stEx [] = [] ∧ getManyByIdsStoreAccesses [] = 0)
    ∧ (wishEx.toJSON ∈ getManyByIds stEx [1, 5] ↔
        ∃ w, w ∈ stEx.wishes ∧ w.id ∈ [1, 5] ∧ wishEx.toJSON = w.toJSON) :=
  ⟨(getManyByIds_spec stEx []).1 rfl, (getManyByIds_spec stEx [1, 5]).2 wishEx.toJSON⟩

/-- C2: a fault-free `copy` of an existing wish returns the projection of a
brand-new record owned by the acting user, whose descriptive fields equal
the source's, with `raised = 0` and `copied = 0`, and afterward the stored
source wish has `copied` incremented by exactly one with every other field
unchanged. -/
theorem copy_success_spec (st : Store) (wishId : Nat) (user : User) (w : Wish)
    (hWF : st.WF) (hfind : st.findOne wishId = some w) :
    copy st wishId user noInjection =
      (.ok ((copyNewWish st wishId user w).1.toJSON),
        (copyNewWish st wishId user w).2)
    ∧ (copyNewWish st wishId user w).1.ownerId = user.id
    ∧ (copyNewWish st wishId user w).1.raised = 0
    ∧ (copyNewWish st wishId user w).1.copied = 0
    ∧ (copyNewWish st wishId user w).1.title = w.title
    ∧ (copyNewWish st wishId user w).1.description = w.description
    ∧ (copyNewWish st wishId user w).1.link = w.link
    ∧ (copyNewWish st wishId user w).1.image = w.image
    ∧ (copyNewWish st wishId user w).1.price = w.price
    ∧ (copyNewWish st wishId user w).2.findOne wishId
        = some { w with copied := w.copied + 1 } := by
  have hWF1 : (st.updateWish wishId
      (fun row => { row with copied := w.copied + 1 })).WF :=
    WF_updateWish st wishId _ (fun x => rfl) hWF
  have hself := findOne_create_self
    (st.updateWish wishId (fun row => { row with copied := w.copied + 1 }))
    (stripDerived w) user hWF1
  have hold : (copyNewWish st wishId user w).2.findOne wishId
      = some { w with copied := w.copied + 1 } := by
    have h1 : (st.updateWish wishId
        (fun row => { row with copied := w.copied + 1 })).findOne wishId
        = some { w with copied := w.copied + 1 } := by
      rw [findOne_updateWish st wishId
        (fun row => { row with copied := w.copied + 1 }) (fun x => rfl), hfind]
      rfl
    exact findOne_create_old _ (stripDerived w) user wishId _ h1
  refine ⟨?_, rfl, rfl, rfl, rfl, rfl, rfl, rfl, rfl, hold⟩
  simp only [copy, copyTx, hfind, noInjection, Bool.false_eq_true, if_false,
    hself]
  rfl

/-- C2 witness: copying `wishEx` from the one-wish store as user 9 yields
the new record's projection and bumps the stored source's counter to 1. -/
theorem copy_success_spec_witness :
    stEx.WF ∧ stEx.findOne 1 = some wishEx ∧
    copy stEx 1 userB noInjection =
      (.ok ((copyNewWish stEx 1 userB wishEx).1.toJSON),
        (copyNewWish stEx 1 userB wishEx).2)
    ∧ (copyNewWish stEx 1 userB wishEx).1.ownerId = userB.id
    ∧ (copyNewWish stEx 1 userB wishEx).2.findOne 1
        = some { wishEx with copied := 1 } :=
  ⟨by decide, rfl,
    (copy_success_spec stEx 1 userB wishEx (by decide) rfl).1,
    (copy_success_spec stEx 1 userB wishEx (by decide) rfl).2.1,
    (copy_success_spec stEx 1 userB wishEx (by decide) rfl).2.2.2.2.2.2.2.2.2⟩

/-- C10: if the source wish is gone by the time `copy`'s in-block re-read
runs, the block fails with the unguarded null-destructure TypeError — an
error kind distinct from NotFound — while the re-read of the newly created
record is the one guarded by NotFound. -/
theorem copy_vanished_source_typeError (st : Store) (wishId : Nat)
    (user : User) (w : Wish) (hfind : st.findOne wishId = some w) :
    (copy st wishId user injDeleteBeforeTx).1 = .error .typeError
    ∧ (∀ m : ErrMsg, Exc.typeError ≠ Exc.notFoundException m)
    ∧ (copy st wishId user injHideSaved).1
        = .error (.notFoundException .notFound) := by
  refine ⟨?_, fun m h => Exc.noConfusion h, ?_⟩
  · have hdel := findOne_deleteWish st wishId
    simp only [copy, copyTx, hfind, injDeleteBeforeTx, if_true, hdel]
  · simp only [copy, copyTx, hfind, injHideSaved, Bool.false_eq_true, if_false,
      if_true]

/-- C10 witness: deleting `wishEx` between `copy`'s initial load and the
in-block re-read makes the call fail with the TypeError, not NotFound. -/
theorem copy_vanished_source_typeError_witness :
    stEx.findOne 1 = some wishEx ∧
    (copy stEx 1 userB injDeleteBeforeTx).1 = .error .typeError ∧
    Exc.typeError ≠ Exc.notFoundException .notFound :=
  ⟨rfl, (copy_vanished_source_typeError stEx 1 userB wishEx rfl).1,
    (copy_vanished_source_typeError stEx 1 userB wishEx rfl).2.1 .notFound⟩

/-- C1 (failing input): with the single-wish store and the new-record
insertion made to fail inside `copy`'s block, the error is re-surfaced but
the source wish's `copied` counter stays incremented: the block's writes
run through the repository on the default connection, not through the
query runner's manager, so the rollback restores nothing and the claimed
atomicity does not hold. -/
theorem copy_rollback_gap :
    wishEx.copied = 0 ∧ stEx.findOne 1 = some wishEx ∧
    (copy stEx 1 userB injFailCreate).1 = .error .storeError ∧
    (copy stEx 1 userB injFailCreate).2.findOne 1
      = some { wishEx with copied := 1 } ∧
    (copy stEx 1 userB injFailCreate).2 ≠ stEx := by
  refine ⟨rfl, rfl, by decide, by decide, by decide⟩
